import Mathlib

/-!
Verification of the SAD VM execution engine (SAD_VM.py).

The machine state and every opcode handler are embedded as executable Lean
definitions mirroring the Python source: registers and data memory are
Python dictionaries (association lists keyed by Python values), the stack is
a list, and Python exceptions (IndexError, KeyError, TypeError,
ZeroDivisionError, SystemExit from quit()) are an explicit error type
threaded through `Except`.  The fetch-execute loop `run`, with its
`except IndexError: return 0` handler and its `while regs[PC] is not None`
guard, is modelled fuel-indexed by `runFuel`.
-/

set_option maxHeartbeats 1000000

namespace SADVM

/-- A Python value as it occurs in machine state: an int, or `None`. -/
abbrev Val := Option Int

/-- The Python exceptions the interpreter can raise.  `keyError` carries the
missing dictionary key, `systemExit` the name of the handler whose
`print(...); quit()` path raised it. -/
inductive PyExc where
  | indexError : PyExc
  | keyError : Val → PyExc
  | typeError : PyExc
  | zeroDivisionError : PyExc
  | systemExit : String → PyExc
  | eofError : PyExc
  | valueError : PyExc
  deriving DecidableEq, Repr

/-- One observable output action: `print(regs[src])`, `print(chr(n), end='')`,
or the bare `print()` emitted for a zero character code. -/
inductive OutEvent where
  | numOut : Val → OutEvent
  | charOut : Int → OutEvent
  | newline : OutEvent
  deriving DecidableEq, Repr

/-- A Python dict with `Val` keys and `Val` values (used for `self.regs`
and `self.mem`). -/
abbrev PyDict := List (Val × Val)

/-- `d[k]` as a partial lookup (first matching key). -/
def dLookup (d : PyDict) (k : Val) : Option Val :=
  match d with
  | [] => none
  | p :: rest => if p.1 = k then some p.2 else dLookup rest k

/-- Reading `d[k]`: raises `KeyError(k)` when the key is absent. -/
def dGet (d : PyDict) (k : Val) : Except PyExc Val :=
  match dLookup d k with
  | some v => .ok v
  | none => .error (.keyError k)

/-- Writing `d[k] = v`: replaces the binding in place, or appends a new one. -/
def dSet (d : PyDict) (k : Val) (v : Val) : PyDict :=
  match d with
  | [] => [(k, v)]
  | p :: rest => if p.1 = k then (k, v) :: rest else p :: dSet rest k v

/-- `rest[i]` on an instruction tuple: IndexError when out of range. -/
def tupGet (rest : List Val) (i : Nat) : Except PyExc Val :=
  match rest[i]? with
  | some v => .ok v
  | none => .error .indexError

/-- Python truthiness of a value (`None` and `0` are falsy). -/
def truthy : Val → Bool
  | none => false
  | some n => n != 0

/-- Python `+` on machine values: TypeError unless both are ints. -/
def addV : Val → Val → Except PyExc Val
  | some a, some b => .ok (some (a + b))
  | _, _ => .error .typeError

/-- Python `-` on machine values. -/
def subV : Val → Val → Except PyExc Val
  | some a, some b => .ok (some (a - b))
  | _, _ => .error .typeError

/-- Python `*` on machine values. -/
def mulV : Val → Val → Except PyExc Val
  | some a, some b => .ok (some (a * b))
  | _, _ => .error .typeError

/-- Python `//` on machine values: floor division, ZeroDivisionError on a
zero divisor, TypeError on `None`. -/
def divV : Val → Val → Except PyExc Val
  | some a, some b =>
      if b = 0 then .error .zeroDivisionError else .ok (some (Int.fdiv a b))
  | _, _ => .error .typeError

/-- Python `<`, `>`, `<=`, `>=` on machine values: TypeError on `None`. -/
def cmpV (f : Int → Int → Bool) : Val → Val → Except PyExc Bool
  | some a, some b => .ok (f a b)
  | _, _ => .error .typeError

/-- The machine state: the fields of `Machine.__init__`, plus the pending
input integers and the output produced so far. -/
structure Machine where
  program : List (List Val)
  cond : Int
  ra : Val
  regs : PyDict
  stack : List Val
  mem : PyDict
  input : List Int
  output : List OutEvent
  deriving DecidableEq, Repr

/-- `self.program[i]` with Python list-index semantics: indices in
`[0, len)` read directly, indices in `[-len, 0)` wrap to `len + i`,
anything else raises IndexError. -/
def fetch (prog : List (List Val)) (i : Int) : Except PyExc (List Val) :=
  if 0 ≤ i ∧ i < (prog.length : Int) then
    match prog[i.toNat]? with
    | some ins => .ok ins
    | none => .error .indexError
  else if -(prog.length : Int) ≤ i ∧ i < 0 then
    match prog[(i + (prog.length : Int)).toNat]? with
    | some ins => .ok ins
    | none => .error .indexError
  else .error .indexError

/-- `mov_op`: `regs[dst] = regs[src]`. -/
def mov_op (m : Machine) (rest : List Val) : Except PyExc Machine := do
  let dst ← tupGet rest 0
  let src ← tupGet rest 1
  let v ← dGet m.regs src
  pure { m with regs := dSet m.regs dst v }

/-- `math_op`: three-register arithmetic with mode in {ADD,SUB,MULT,DIV};
any other mode prints an error and calls `quit()`. -/
def math_op (m : Machine) (rest : List Val) : Except PyExc Machine := do
  let dst ← tupGet rest 0
  let src1 ← tupGet rest 1
  let src2 ← tupGet rest 2
  let mode ← tupGet rest 3
  if mode = some 0 then
    let a ← dGet m.regs src1
    let b ← dGet m.regs src2
    let v ← addV a b
    pure { m with regs := dSet m.regs dst v }
  else if mode = some 1 then
    let a ← dGet m.regs src1
    let b ← dGet m.regs src2
    let v ← subV a b
    pure { m with regs := dSet m.regs dst v }
  else if mode = some 2 then
    let a ← dGet m.regs src1
    let b ← dGet m.regs src2
    let v ← mulV a b
    pure { m with regs := dSet m.regs dst v }
  else if mode = some 3 then
    let a ← dGet m.regs src1
    let b ← dGet m.regs src2
    let v ← divV a b
    pure { m with regs := dSet m.regs dst v }
  else
    .error (.systemExit "math_op")

/-- `mathi_op`: in-place register/immediate arithmetic; unrecognized mode
prints an error and calls `quit()`. -/
def mathi_op (m : Machine) (rest : List Val) : Except PyExc Machine := do
  let dst ← tupGet rest 0
  let mode ← tupGet rest 1
  let imm ← tupGet rest 2
  if mode = some 0 then
    let v ← dGet m.regs dst
    let r ← addV v imm
    pure { m with regs := dSet m.regs dst r }
  else if mode = some 1 then
    let v ← dGet m.regs dst
    let r ← subV v imm
    pure { m with regs := dSet m.regs dst r }
  else if mode = some 2 then
    let v ← dGet m.regs dst
    let r ← mulV v imm
    pure { m with regs := dSet m.regs dst r }
  else if mode = some 3 then
    let v ← dGet m.regs dst
    let r ← divV v imm
    pure { m with regs := dSet m.regs dst r }
  else
    .error (.systemExit "mathi_op")

/-- `mem_op`: LOAD reads input at the `0xff00` sentinel or else
`regs[dst] = mem[regs[src]]` (KeyError when the address was never stored);
STOR prints at the `0xffff0000`/`0xffff0001` sentinels or else
`mem[regs[dst]] = regs[src]`; any other mode falls through both branches
and is a silent no-op. -/
def mem_op (m : Machine) (rest : List Val) : Except PyExc Machine := do
  let dst ← tupGet rest 0
  let src ← tupGet rest 1
  let mode ← tupGet rest 2
  if mode = some 0 then
    if src = some 0xff00 then
      match m.input with
      | [] => .error .eofError
      | x :: xs => pure { m with regs := dSet m.regs dst (some x), input := xs }
    else
      let a ← dGet m.regs src
      let v ← dGet m.mem a
      pure { m with regs := dSet m.regs dst v }
  else if mode = some 1 then
    if dst = some 0xffff0000 then
      let v ← dGet m.regs src
      pure { m with output := m.output ++ [.numOut v] }
    else if dst = some 0xffff0001 then
      let v ← dGet m.regs src
      if v = some 0 then
        pure { m with output := m.output ++ [.newline] }
      else
        match v with
        | none => .error .typeError
        | some n =>
            if 0 ≤ n ∧ n < 1114112 then
              pure { m with output := m.output ++ [.charOut n] }
            else .error .valueError
    else
      let a ← dGet m.regs dst
      let v ← dGet m.regs src
      pure { m with mem := dSet m.mem a v }
  else
    pure m

/-- `limm_op`: `regs[dst] = rest[1]` (the literal itself, possibly `None`). -/
def limm_op (m : Machine) (rest : List Val) : Except PyExc Machine := do
  let dst ← tupGet rest 0
  let lit ← tupGet rest 1
  pure { m with regs := dSet m.regs dst lit }

/-- `jmp_op`: `regs[PC] = rest[0]`. -/
def jmp_op (m : Machine) (rest : List Val) : Except PyExc Machine := do
  let t ← tupGet rest 0
  pure { m with regs := dSet m.regs (some 0) t }

/-- `jmpc_op`: `if not self.cond: regs[PC] = rest[0]`. -/
def jmpc_op (m : Machine) (rest : List Val) : Except PyExc Machine :=
  if m.cond = 0 then do
    let t ← tupGet rest 0
    pure { m with regs := dSet m.regs (some 0) t }
  else
    pure m

/-- `jmpr_op`: `ra = regs[PC]; regs[PC] = rest[0]`. -/
def jmpr_op (m : Machine) (rest : List Val) : Except PyExc Machine := do
  let pcv ← dGet m.regs (some 0)
  let m1 := { m with ra := pcv }
  let t ← tupGet rest 0
  pure { m1 with regs := dSet m1.regs (some 0) t }

/-- `ret_op`: `regs[PC] = self.ra` (the operand list is ignored). -/
def ret_op (m : Machine) (_rest : List Val) : Except PyExc Machine :=
  pure { m with regs := dSet m.regs (some 0) m.ra }

/-- `comp_op`: sets `cond = int(regs[reg1] <cmp> regs[reg2])`; unrecognized
mode prints an error and calls `quit()`. -/
def comp_op (m : Machine) (rest : List Val) : Except PyExc Machine := do
  let reg1 ← tupGet rest 0
  let reg2 ← tupGet rest 1
  let mode ← tupGet rest 2
  if mode = some 0 then
    let a ← dGet m.regs reg1
    let b ← dGet m.regs reg2
    pure { m with cond := if a = b then 1 else 0 }
  else if mode = some 1 then
    let a ← dGet m.regs reg1
    let b ← dGet m.regs reg2
    pure { m with cond := if a = b then 0 else 1 }
  else if mode = some 2 then
    let a ← dGet m.regs reg1
    let b ← dGet m.regs reg2
    let r ← cmpV (fun x y => decide (x < y)) a b
    pure { m with cond := if r then 1 else 0 }
  else if mode = some 3 then
    let a ← dGet m.regs reg1
    let b ← dGet m.regs reg2
    let r ← cmpV (fun x y => decide (x > y)) a b
    pure { m with cond := if r then 1 else 0 }
  else if mode = some 4 then
    let a ← dGet m.regs reg1
    let b ← dGet m.regs reg2
    let r ← cmpV (fun x y => decide (x ≤ y)) a b
    pure { m with cond := if r then 1 else 0 }
  else if mode = some 5 then
    let a ← dGet m.regs reg1
    let b ← dGet m.regs reg2
    let r ← cmpV (fun x y => decide (x ≥ y)) a b
    pure { m with cond := if r then 1 else 0 }
  else
    .error (.systemExit "comp_op")

/-- `cnt_op`: `regs[R_CNT] = rest[0]`. -/
def cnt_op (m : Machine) (rest : List Val) : Except PyExc Machine := do
  let lit ← tupGet rest 0
  pure { m with regs := dSet m.regs (some 1) lit }

/-- `loop_op`: `regs[R_CNT] -= 1; if regs[R_CNT]: regs[PC] = rest[0]`. -/
def loop_op (m : Machine) (rest : List Val) : Except PyExc Machine := do
  let v ← dGet m.regs (some 1)
  let d ← subV v (some 1)
  let m1 := { m with regs := dSet m.regs (some 1) d }
  if truthy d then
    let t ← tupGet rest 0
    pure { m1 with regs := dSet m1.regs (some 0) t }
  else
    pure m1

/-- `inc_op`: `regs[rest[0]] += 1`. -/
def inc_op (m : Machine) (rest : List Val) : Except PyExc Machine := do
  let reg ← tupGet rest 0
  let v ← dGet m.regs reg
  let r ← addV v (some 1)
  pure { m with regs := dSet m.regs reg r }

/-- `dec_op`: `regs[rest[0]] -= 1`. -/
def dec_op (m : Machine) (rest : List Val) : Except PyExc Machine := do
  let reg ← tupGet rest 0
  let v ← dGet m.regs reg
  let r ← subV v (some 1)
  pure { m with regs := dSet m.regs reg r }

/-- `stck_op`: PUSH appends `regs[reg]`; POP removes the last stack element
into `regs[reg]` and raises IndexError (`list.pop` on an empty list) when
the stack is empty; any other mode is a silent no-op. -/
def stck_op (m : Machine) (rest : List Val) : Except PyExc Machine := do
  let reg ← tupGet rest 0
  let mode ← tupGet rest 1
  if mode = some 0 then
    let v ← dGet m.regs reg
    pure { m with stack := m.stack ++ [v] }
  else if mode = some 1 then
    match m.stack.getLast? with
    | none => .error .indexError
    | some v => pure { m with stack := m.stack.dropLast, regs := dSet m.regs reg v }
  else
    pure m

/-- `self.ops[op](rest)`: the dispatch dict of `__init__`.  The keys are the
fifteen opcode values bound there (LOG = 6 was never added); any other
opcode raises KeyError from the dict lookup. -/
def execOp : Val → List Val → Machine → Except PyExc Machine
  | none, _, _ => .error (.keyError none)
  | some op, rest, m =>
    if op = 0 then mov_op m rest
    else if op = 1 then mem_op m rest
    else if op = 2 then limm_op m rest
    else if op = 3 then math_op m rest
    else if op = 4 then mathi_op m rest
    else if op = 5 then comp_op m rest
    else if op = 7 then cnt_op m rest
    else if op = 8 then loop_op m rest
    else if op = 9 then jmp_op m rest
    else if op = 10 then jmpc_op m rest
    else if op = 11 then jmpr_op m rest
    else if op = 12 then ret_op m rest
    else if op = 13 then inc_op m rest
    else if op = 14 then dec_op m rest
    else if op = 15 then stck_op m rest
    else .error (.keyError (some op))

/-- One iteration of the `while` loop of `run`: test `regs[PC] is not None`
(`.ok none` means the condition is false and the loop exits), fetch
`program[regs[PC]]`, increment `regs[PC]`, split the tuple and dispatch. -/
def loopStep (m : Machine) : Except PyExc (Option Machine) :=
  match dLookup m.regs (some 0) with
  | none => .error (.keyError (some 0))
  | some none => .ok none
  | some (some pc) =>
    match fetch m.program pc with
    | .error e => .error e
    | .ok instr =>
      let m1 := { m with regs := dSet m.regs (some 0) (some (pc + 1)) }
      match instr with
      | [] => .error .indexError
      | opv :: rest =>
        match execOp opv rest m1 with
        | .error e => .error e
        | .ok m2 => .ok (some m2)

/-- How a call of `run` ends: `halt0` is `except IndexError: return 0`,
`haltNone` is the `while` condition turning false (implicit `return None`),
`fault e` is an exception other than IndexError escaping `run`. -/
inductive RunResult where
  | halt0 : RunResult
  | haltNone : RunResult
  | fault : PyExc → RunResult
  deriving DecidableEq, Repr

/-- The `run` loop, indexed by fuel; `none` means the loop was still
running after `fuel` iterations.  The machine returned with the result is
the state at the start of the iteration that ended the run. -/
def runFuel : Nat → Machine → Option (RunResult × Machine)
  | 0, _ => none
  | fuel + 1, m =>
    match loopStep m with
    | .error .indexError => some (.halt0, m)
    | .error e => some (.fault e, m)
    | .ok none => some (.haltNone, m)
    | .ok (some m1) => runFuel fuel m1

/-- `{i: 0 for i in range(16)}`. -/
def initRegs : PyDict :=
  (List.range 16).map (fun i => ((some (Int.ofNat i) : Val), (some 0 : Val)))

/-- `Machine(prog)`: zeroed registers, empty stack and memory. -/
def initMachine (p : List (List Val)) : Machine :=
  { program := p, cond := 0, ra := some 0, regs := initRegs,
    stack := [], mem := [], input := [], output := [] }

/-- The result kind of running `Machine(p).run()` with the given fuel. -/
def runKind (fuel : Nat) (p : List (List Val)) : Option RunResult :=
  (runFuel fuel (initMachine p)).map Prod.fst

/-- The value of register `r` in the machine state a completed run ends in. -/
def runReg (fuel : Nat) (p : List (List Val)) (r : Int) : Option Val :=
  match runFuel fuel (initMachine p) with
  | some (_, m) => dLookup m.regs (some r)
  | none => none

/-- Iterate `loopStep` while the loop keeps running. -/
def stepN : Nat → Machine → Except PyExc (Option Machine)
  | 0, m => .ok (some m)
  | n + 1, m =>
    match loopStep m with
    | .ok (some m1) => stepN n m1
    | r => r

/-- The value of register `r` after `n` successful loop iterations from
`Machine(p)` (with the loop still running). -/
def regAfter (n : Nat) (p : List (List Val)) (r : Int) : Option Val :=
  match stepN n (initMachine p) with
  | .ok (some m) => dLookup m.regs (some r)
  | _ => none

/-! ### Generic lemmas about the dictionaries and the run loop -/

theorem dLookup_dSet_self (d : PyDict) (k v : Val) :
    dLookup (dSet d k v) k = some v := by
  induction d with
  | nil => simp [dSet, dLookup]
  | cons p rest ih =>
      by_cases hp : p.1 = k
      · simp [dSet, hp, dLookup]
      · simp [dSet, hp, dLookup, ih]

theorem dLookup_dSet_ne (d : PyDict) (k k' v : Val) (h : k' ≠ k) :
    dLookup (dSet d k v) k' = dLookup d k' := by
  have hkk : ¬(k = k') := fun hk => h hk.symm
  induction d with
  | nil =>
      simp only [dSet, dLookup, if_neg hkk]
  | cons p rest ih =>
      by_cases hp : p.1 = k
      · have hp' : ¬(p.1 = k') := by rw [hp]; exact hkk
        simp only [dSet, if_pos hp, dLookup, if_neg hkk, if_neg hp']
      · simp only [dSet, if_neg hp, dLookup, ih]

@[simp] theorem exc_bind_ok {α β : Type} (a : α) (f : α → Except PyExc β) :
    (Except.ok a >>= f) = f a := rfl

@[simp] theorem exc_bind_error {α β : Type} (e : PyExc) (f : α → Except PyExc β) :
    ((Except.error e : Except PyExc α) >>= f) = Except.error e := rfl

@[simp] theorem exc_pure {α : Type} (a : α) : (pure a : Except PyExc α) = Except.ok a := rfl

@[simp] theorem exc_map_ok {α β : Type} (f : α → β) (a : α) :
    (f <$> (Except.ok a : Except PyExc α)) = Except.ok (f a) := rfl

@[simp] theorem exc_map_error {α β : Type} (f : α → β) (e : PyExc) :
    (f <$> (Except.error e : Except PyExc α)) = Except.error e := rfl

theorem dGet_eq_ok (d : PyDict) (k v : Val) (h : dLookup d k = some v) :
    dGet d k = Except.ok v := by simp [dGet, h]

theorem dGet_eq_error (d : PyDict) (k : Val) (h : dLookup d k = none) :
    dGet d k = Except.error (PyExc.keyError k) := by simp [dGet, h]

theorem runFuel_halt0 (fuel : Nat) (m : Machine)
    (h : loopStep m = .error .indexError) :
    runFuel (fuel + 1) m = some (.halt0, m) := by
  simp [runFuel, h]

theorem runFuel_haltNone (fuel : Nat) (m : Machine)
    (h : loopStep m = .ok none) :
    runFuel (fuel + 1) m = some (.haltNone, m) := by
  simp [runFuel, h]

theorem runFuel_fault (fuel : Nat) (m : Machine) (e : PyExc)
    (h : loopStep m = .error e) (he : e ≠ .indexError) :
    runFuel (fuel + 1) m = some (.fault e, m) := by
  cases e with
  | indexError => exact absurd rfl he
  | keyError k => simp [runFuel, h]
  | typeError => simp [runFuel, h]
  | zeroDivisionError => simp [runFuel, h]
  | systemExit s => simp [runFuel, h]
  | eofError => simp [runFuel, h]
  | valueError => simp [runFuel, h]

/-- Fetching at an index that Python list indexing rejects (at or past the
end, or below `-len`) raises IndexError. -/
theorem fetch_out_of_range (prog : List (List Val)) (i : Int)
    (h : (prog.length : Int) ≤ i ∨ i < -(prog.length : Int)) :
    fetch prog i = .error .indexError := by
  unfold fetch
  rcases h with h | h
  · rw [if_neg, if_neg]
    · intro hc
      omega
    · intro hc
      omega
  · rw [if_neg, if_neg]
    · intro hc
      omega
    · intro hc
      omega

/-! ### Claim C1: out-of-range program counter -/

/-- `[(JMP, -2), (LIMM, R_2, 42), (JMP, 5)]`: the first jump drives the PC
to `-2`, which is outside `[0, 3)`. -/
def progC1 : List (List Val) :=
  [[some 9, some (-2)], [some 2, some 4, some 42], [some 9, some 5]]

/-- Claim C1 (counterexample): a PC of `-2` on a 3-instruction program is
outside `[0, len(program))`, yet the run does not halt there: Python list
indexing wraps the negative index, the `LIMM` handler at wrapped index 1
executes afterwards (register `R_2` changes from 0 to 42), and the run only
halts later.  This refutes "no handler executes after that point ...
including negative PC values". -/
theorem C1_counterexample :
    regAfter 1 progC1 0 = some (some (-2)) ∧
    ¬(0 ≤ (-2 : Int) ∧ (-2 : Int) < (progC1.length : Int)) ∧
    regAfter 1 progC1 4 = some (some 0) ∧
    regAfter 2 progC1 4 = some (some 42) ∧
    runKind 10 progC1 = some RunResult.halt0 ∧
    runReg 10 progC1 4 = some (some 42) := by
  refine ⟨by decide, by decide, by decide, by decide, by decide, by decide⟩

/-- Claim C1 (amended): the run terminates as a normal halt, with no
handler executing afterwards, whenever the PC holds a value `pc` with
`pc ≥ len(program)` or `pc < -len(program)`; a negative PC in
`[-len(program), -1]` instead wraps around (Python list indexing) to the
instruction at `len(program) + pc` and execution continues. -/
theorem C1_amended (fuel : Nat) (m : Machine) (pc : Int)
    (hpc : dLookup m.regs (some 0) = some (some pc))
    (hout : (m.program.length : Int) ≤ pc ∨ pc < -(m.program.length : Int)) :
    runFuel (fuel + 1) m = some (RunResult.halt0, m) := by
  have hstep : loopStep m = .error .indexError := by
    simp only [loopStep, hpc, fetch_out_of_range m.program pc hout]
  exact runFuel_halt0 fuel m hstep

/-- A machine whose PC already sits at 99, past the single instruction of
its program. -/
def mC1W : Machine :=
  { initMachine [[some 9, some 5]] with
      regs := dSet initRegs (some 0) (some 99) }

theorem C1_amended_witness :
    runFuel 1 mC1W = some (RunResult.halt0, mC1W) :=
  C1_amended 0 mC1W 99 (by decide) (by decide)

/-! ### Claim C2: popping an empty stack -/

/-- `[(STCK, R_0, POP)]`: a pop from the initially empty stack. -/
def progC2 : List (List Val) :=
  [[some 15, some 2, some 1]]

/-- Claim C2 (counterexample): popping the empty stack raises IndexError
(`list.pop` on an empty list), which `run`'s `except IndexError: return 0`
handler catches — so the run reports `halt0`, the very same normal-halt
outcome an empty program produces, not a distinct FAULTED outcome. -/
theorem C2_counterexample :
    stck_op (initMachine progC2) [some 2, some 1] = Except.error PyExc.indexError ∧
    runKind 5 progC2 = some RunResult.halt0 ∧
    runKind 5 ([] : List (List Val)) = some RunResult.halt0 := by
  refine ⟨rfl, by decide, by decide⟩

/-- Claim C2 (amended): executing `STCK`/POP on an empty stack raises
IndexError from `list.pop`, which stops the execution loop, but `run`'s
IndexError handler reports it as the normal-halt outcome (`return 0`),
indistinguishable from designed termination — not as a distinct fault. -/
theorem C2_amended (fuel : Nat) (m : Machine) (pc : Int) (reg : Val)
    (hpc : dLookup m.regs (some 0) = some (some pc))
    (hfetch : fetch m.program pc = .ok [some 15, reg, some 1])
    (hstack : m.stack = []) :
    stck_op m [reg, some 1] = Except.error PyExc.indexError ∧
    runFuel (fuel + 1) m = some (RunResult.halt0, m) := by
  have hop : ∀ mm : Machine, mm.stack = [] →
      stck_op mm [reg, some 1] = Except.error PyExc.indexError := by
    intro mm hs
    simp [stck_op, tupGet, hs, exc_bind_ok]
  refine ⟨hop m hstack, ?_⟩
  have hstep : loopStep m = .error .indexError := by
    simp only [loopStep, hpc, hfetch, execOp]
    simp [hop { m with regs := dSet m.regs (some 0) (some (pc + 1)) } hstack]
  exact runFuel_halt0 fuel m hstep

/-- A machine about to pop the empty stack. -/
def mC2W : Machine := initMachine progC2

theorem C2_amended_witness :
    stck_op mC2W [some 2, some 1] = Except.error PyExc.indexError ∧
    runFuel 1 mC2W = some (RunResult.halt0, mC2W) :=
  C2_amended 0 mC2W 0 (some 2) rfl rfl rfl

/-! ### Claim C3: loading from an unset memory address -/

/-- Claim C3 (confirmed): a `MEM`/LOAD whose source operand is not the
input sentinel `0xff00`, reading an address that was never stored to,
raises `KeyError(address)` from the data-memory dict — a distinct error
kind, not a defaulted zero — and the run surfaces it as a fault (KeyError
is not the IndexError that `run` treats as a normal halt). -/
theorem C3_unset_memory_read (fuel : Nat) (m : Machine) (pc : Int)
    (dst src addr : Val)
    (hsrc : src ≠ some 0xff00) (hsrc0 : src ≠ some 0)
    (haddr : dGet m.regs src = Except.ok addr)
    (hmem : dLookup m.mem addr = none)
    (hpc : dLookup m.regs (some 0) = some (some pc))
    (hfetch : fetch m.program pc = .ok [some 1, dst, src, some 0]) :
    mem_op m [dst, src, some 0] = Except.error (PyExc.keyError addr) ∧
    runFuel (fuel + 1) m = some (RunResult.fault (PyExc.keyError addr), m) := by
  have hop : ∀ mm : Machine, dGet mm.regs src = Except.ok addr →
      dLookup mm.mem addr = none →
      mem_op mm [dst, src, some 0] = Except.error (PyExc.keyError addr) := by
    intro mm h1 h2
    simp [mem_op, tupGet, hsrc, h1, dGet_eq_error mm.mem addr h2]
  have haddr1 : dGet (dSet m.regs (some 0) (some (pc + 1))) src = Except.ok addr := by
    unfold dGet at haddr ⊢
    rw [dLookup_dSet_ne m.regs (some 0) src (some (pc + 1)) hsrc0]
    exact haddr
  refine ⟨hop m haddr hmem, ?_⟩
  have hstep : loopStep m = Except.error (PyExc.keyError addr) := by
    simp only [loopStep, hpc, hfetch, execOp]
    simp [hop { m with regs := dSet m.regs (some 0) (some (pc + 1)) } haddr1 hmem]
  exact runFuel_fault fuel m _ hstep (by simp)

/-- A machine whose next instruction loads from the never-written address
held in register `R_3` (value 0) into `R_2`. -/
def mC3W : Machine := initMachine [[some 1, some 4, some 5, some 0]]

theorem C3_witness :
    mem_op mC3W [some 4, some 5, some 0] = Except.error (PyExc.keyError (some 0)) ∧
    runFuel 1 mC3W = some (RunResult.fault (PyExc.keyError (some 0)), mC3W) :=
  C3_unset_memory_read 0 mC3W 0 (some 4) (some 5) (some 0)
    (by decide) (by decide) rfl rfl rfl rfl

/-! ### Claim C4: JMPC branch polarity -/

/-- Claim C4 (confirmed): `jmpc_op` assigns `regs[PC] = target` exactly
when the condition flag is 0 and leaves the machine untouched when it is 1,
and `comp_op` with mode EQ on two registers holding the same value sets the
flag to 1, after which `jmpc_op` falls through. -/
theorem C4_jmpc_polarity (m : Machine) (t r1 r2 v : Val)
    (h1 : dGet m.regs r1 = Except.ok v)
    (h2 : dGet m.regs r2 = Except.ok v) :
    (m.cond = 0 → jmpc_op m [t] = Except.ok { m with regs := dSet m.regs (some 0) t }) ∧
    (m.cond = 1 → jmpc_op m [t] = Except.ok m) ∧
    comp_op m [r1, r2, some 0] = Except.ok { m with cond := 1 } ∧
    jmpc_op { m with cond := 1 } [t] = Except.ok { m with cond := 1 } := by
  refine ⟨?_, ?_, ?_, ?_⟩
  · intro h0
    simp [jmpc_op, h0, tupGet, exc_bind_ok]
  · intro h0
    simp [jmpc_op, h0]
  · simp [comp_op, tupGet, h1, h2, exc_bind_ok]
  · simp [jmpc_op]

theorem C4_witness :
    comp_op (initMachine []) [some 2, some 3, some 0]
      = Except.ok { initMachine [] with cond := 1 } ∧
    jmpc_op { initMachine [] with cond := 1 } [some 7]
      = Except.ok { initMachine [] with cond := 1 } :=
  ⟨(C4_jmpc_polarity (initMachine []) (some 7) (some 2) (some 3) (some 0) rfl rfl).2.2.1,
   (C4_jmpc_polarity (initMachine []) (some 7) (some 2) (some 3) (some 0) rfl rfl).2.2.2⟩

/-! ### Claim C5: DIV is floor division -/

/-- The range of Python's `%` (here `Int.fmod`) for a negative divisor:
the remainder lies in `(b, 0]`. -/
theorem fmod_bounds_of_neg (a b : Int) (hb : b < 0) :
    b < Int.fmod a b ∧ Int.fmod a b ≤ 0 := by
  match b, hb with
  | Int.negSucc n, _ =>
    match a with
    | Int.ofNat 0 =>
        rw [show Int.fmod (Int.ofNat 0) (Int.negSucc n) = 0 from rfl]
        constructor
        · rw [Int.negSucc_eq]
          omega
        · omega
    | Int.ofNat (Nat.succ mq) =>
        rw [show Int.fmod (Int.ofNat (Nat.succ mq)) (Int.negSucc n)
              = Int.subNatNat (mq % (n + 1)) n from rfl]
        rw [Int.subNatNat_eq_coe, Int.negSucc_eq]
        have hlt : mq % (n + 1) < n + 1 := Nat.mod_lt mq (Nat.succ_pos n)
        omega
    | Int.negSucc mq =>
        rw [show Int.fmod (Int.negSucc mq) (Int.negSucc n)
              = -((Nat.succ mq % Nat.succ n : Nat) : Int) from rfl]
        rw [Int.negSucc_eq]
        have hlt : Nat.succ mq % Nat.succ n < Nat.succ n :=
          Nat.mod_lt (Nat.succ mq) (Nat.succ_pos n)
        omega

/-- Claim C5 (confirmed): `MATH`/DIV and `MATHI`/DIV compute Python's `//`,
i.e. floor division: the quotient `q = a.fdiv b` satisfies
`b*q ≤ a < b*(q+1)` for positive `b` and `b*(q+1) < a ≤ b*q` for negative
`b` (truncation toward negative infinity), and in particular
`-7 // 2 = -4` while truncation toward zero would give `-3`. -/
theorem C5_div_floor (m : Machine) (dst s1 s2 : Val) (a b : Int)
    (h1 : dGet m.regs s1 = Except.ok (some a))
    (h2 : dGet m.regs s2 = Except.ok (some b))
    (hdst : dGet m.regs dst = Except.ok (some a))
    (hb : b ≠ 0) :
    math_op m [dst, s1, s2, some 3]
      = Except.ok { m with regs := dSet m.regs dst (some (Int.fdiv a b)) } ∧
    mathi_op m [dst, some 3, some b]
      = Except.ok { m with regs := dSet m.regs dst (some (Int.fdiv a b)) } ∧
    (0 < b → b * Int.fdiv a b ≤ a ∧ a < b * (Int.fdiv a b + 1)) ∧
    (b < 0 → b * (Int.fdiv a b + 1) < a ∧ a ≤ b * Int.fdiv a b) ∧
    Int.fdiv (-7) 2 = -4 ∧
    Int.tdiv (-7) 2 = -3 := by
  refine ⟨?_, ?_, ?_, ?_, by decide, by decide⟩
  · simp [math_op, tupGet, exc_bind_ok, h1, h2, divV, hb]
  · simp [mathi_op, tupGet, exc_bind_ok, hdst, divV, hb]
  · intro hbpos
    have hq := Int.fdiv_add_fmod a b
    have hr1 := Int.fmod_nonneg' a hbpos
    have hr2 := Int.fmod_lt_of_pos a hbpos
    rw [Int.mul_add, Int.mul_one]
    constructor
    · linarith
    · linarith
  · intro hbneg
    have hq := Int.fdiv_add_fmod a b
    have hr := fmod_bounds_of_neg a b hbneg
    rw [Int.mul_add, Int.mul_one]
    constructor
    · linarith [hr.1]
    · linarith [hr.2]

/-- A machine holding `-7` in `R_2` and `2` in `R_3`, for dividing. -/
def mC5W : Machine :=
  { initMachine [] with
      regs := dSet (dSet initRegs (some 4) (some (-7))) (some 5) (some 2) }

theorem C5_witness :
    math_op mC5W [some 4, some 4, some 5, some 3]
      = Except.ok { mC5W with regs := dSet mC5W.regs (some 4) (some (-4)) } ∧
    Int.fdiv (-7) 2 = -4 ∧ Int.tdiv (-7) 2 = -3 := by
  have h := C5_div_floor mC5W (some 4) (some 4) (some 5) (-7) 2 rfl rfl rfl (by decide)
  exact ⟨h.1, h.2.2.2.2.1, h.2.2.2.2.2⟩

/-! ### Claim C6: JMPR/RET call-return -/

theorem exBind_ok {α β : Type} {x : Except PyExc α} {f : α → Except PyExc β} {b : β}
    (h : (x >>= f) = Except.ok b) : ∃ a, x = Except.ok a ∧ f a = Except.ok b := by
  cases x with
  | error e => exact absurd h (by simp)
  | ok a => exact ⟨a, rfl, by simpa using h⟩

theorem mov_op_ra {m : Machine} {rest : List Val} {m2 : Machine}
    (h : mov_op m rest = Except.ok m2) : m2.ra = m.ra := by
  unfold mov_op at h
  repeat' first
    | (obtain ⟨_x, -, h⟩ := exBind_ok h)
    | (split at h)
  all_goals first
    | exact Except.noConfusion h
    | (injection h with h; subst h; rfl)

theorem mem_op_ra {m : Machine} {rest : List Val} {m2 : Machine}
    (h : mem_op m rest = Except.ok m2) : m2.ra = m.ra := by
  unfold mem_op at h
  repeat' first
    | (obtain ⟨_x, -, h⟩ := exBind_ok h)
    | (split at h)
  all_goals first
    | exact Except.noConfusion h
    | (injection h with h; subst h; rfl)

theorem limm_op_ra {m : Machine} {rest : List Val} {m2 : Machine}
    (h : limm_op m rest = Except.ok m2) : m2.ra = m.ra := by
  unfold limm_op at h
  repeat' first
    | (obtain ⟨_x, -, h⟩ := exBind_ok h)
    | (split at h)
  all_goals first
    | exact Except.noConfusion h
    | (injection h with h; subst h; rfl)

theorem math_op_ra {m : Machine} {rest : List Val} {m2 : Machine}
    (h : math_op m rest = Except.ok m2) : m2.ra = m.ra := by
  unfold math_op at h
  repeat' first
    | (obtain ⟨_x, -, h⟩ := exBind_ok h)
    | (split at h)
  all_goals first
    | exact Except.noConfusion h
    | (injection h with h; subst h; rfl)

theorem mathi_op_ra {m : Machine} {rest : List Val} {m2 : Machine}
    (h : mathi_op m rest = Except.ok m2) : m2.ra = m.ra := by
  unfold mathi_op at h
  repeat' first
    | (obtain ⟨_x, -, h⟩ := exBind_ok h)
    | (split at h)
  all_goals first
    | exact Except.noConfusion h
    | (injection h with h; subst h; rfl)

theorem comp_op_ra {m : Machine} {rest : List Val} {m2 : Machine}
    (h : comp_op m rest = Except.ok m2) : m2.ra = m.ra := by
  unfold comp_op at h
  repeat' first
    | (obtain ⟨_x, -, h⟩ := exBind_ok h)
    | (split at h)
  all_goals first
    | exact Except.noConfusion h
    | (injection h with h; subst h; rfl)

theorem cnt_op_ra {m : Machine} {rest : List Val} {m2 : Machine}
    (h : cnt_op m rest = Except.ok m2) : m2.ra = m.ra := by
  unfold cnt_op at h
  repeat' first
    | (obtain ⟨_x, -, h⟩ := exBind_ok h)
    | (split at h)
  all_goals first
    | exact Except.noConfusion h
    | (injection h with h; subst h; rfl)

theorem loop_op_ra {m : Machine} {rest : List Val} {m2 : Machine}
    (h : loop_op m rest = Except.ok m2) : m2.ra = m.ra := by
  unfold loop_op at h
  repeat' first
    | (obtain ⟨_x, -, h⟩ := exBind_ok h)
    | (split at h)
  all_goals first
    | exact Except.noConfusion h
    | (injection h with h; subst h; rfl)

theorem jmp_op_ra {m : Machine} {rest : List Val} {m2 : Machine}
    (h : jmp_op m rest = Except.ok m2) : m2.ra = m.ra := by
  unfold jmp_op at h
  repeat' first
    | (obtain ⟨_x, -, h⟩ := exBind_ok h)
    | (split at h)
  all_goals first
    | exact Except.noConfusion h
    | (injection h with h; subst h; rfl)

theorem jmpc_op_ra {m : Machine} {rest : List Val} {m2 : Machine}
    (h : jmpc_op m rest = Except.ok m2) : m2.ra = m.ra := by
  unfold jmpc_op at h
  repeat' first
    | (obtain ⟨_x, -, h⟩ := exBind_ok h)
    | (split at h)
  all_goals first
    | exact Except.noConfusion h
    | (injection h with h; subst h; rfl)

theorem ret_op_ra {m : Machine} {rest : List Val} {m2 : Machine}
    (h : ret_op m rest = Except.ok m2) : m2.ra = m.ra := by
  unfold ret_op at h
  all_goals first
    | exact Except.noConfusion h
    | (injection h with h; subst h; rfl)

theorem inc_op_ra {m : Machine} {rest : List Val} {m2 : Machine}
    (h : inc_op m rest = Except.ok m2) : m2.ra = m.ra := by
  unfold inc_op at h
  repeat' first
    | (obtain ⟨_x, -, h⟩ := exBind_ok h)
    | (split at h)
  all_goals first
    | exact Except.noConfusion h
    | (injection h with h; subst h; rfl)

theorem dec_op_ra {m : Machine} {rest : List Val} {m2 : Machine}
    (h : dec_op m rest = Except.ok m2) : m2.ra = m.ra := by
  unfold dec_op at h
  repeat' first
    | (obtain ⟨_x, -, h⟩ := exBind_ok h)
    | (split at h)
  all_goals first
    | exact Except.noConfusion h
    | (injection h with h; subst h; rfl)

theorem stck_op_ra {m : Machine} {rest : List Val} {m2 : Machine}
    (h : stck_op m rest = Except.ok m2) : m2.ra = m.ra := by
  unfold stck_op at h
  repeat' first
    | (obtain ⟨_x, -, h⟩ := exBind_ok h)
    | (split at h)
  all_goals first
    | exact Except.noConfusion h
    | (injection h with h; subst h; rfl)

/-- Every handler except `jmpr_op` leaves the hidden return-address
register untouched: `self.ra` is only ever assigned inside `jmpr_op`. -/
theorem execOp_ra (op : Int) (rest : List Val) (m m2 : Machine)
    (hop : op ≠ 11) (h : execOp (some op) rest m = Except.ok m2) :
    m2.ra = m.ra := by
  have h2 : (if op = 0 then mov_op m rest
      else if op = 1 then mem_op m rest
      else if op = 2 then limm_op m rest
      else if op = 3 then math_op m rest
      else if op = 4 then mathi_op m rest
      else if op = 5 then comp_op m rest
      else if op = 7 then cnt_op m rest
      else if op = 8 then loop_op m rest
      else if op = 9 then jmp_op m rest
      else if op = 10 then jmpc_op m rest
      else if op = 11 then jmpr_op m rest
      else if op = 12 then ret_op m rest
      else if op = 13 then inc_op m rest
      else if op = 14 then dec_op m rest
      else if op = 15 then stck_op m rest
      else Except.error (PyExc.keyError (some op))) = Except.ok m2 := h
  clear h
  by_cases c0 : op = 0
  · rw [if_pos c0] at h2
    exact mov_op_ra h2
  rw [if_neg c0] at h2
  by_cases c1 : op = 1
  · rw [if_pos c1] at h2
    exact mem_op_ra h2
  rw [if_neg c1] at h2
  by_cases c2 : op = 2
  · rw [if_pos c2] at h2
    exact limm_op_ra h2
  rw [if_neg c2] at h2
  by_cases c3 : op = 3
  · rw [if_pos c3] at h2
    exact math_op_ra h2
  rw [if_neg c3] at h2
  by_cases c4 : op = 4
  · rw [if_pos c4] at h2
    exact mathi_op_ra h2
  rw [if_neg c4] at h2
  by_cases c5 : op = 5
  · rw [if_pos c5] at h2
    exact comp_op_ra h2
  rw [if_neg c5] at h2
  by_cases c7 : op = 7
  · rw [if_pos c7] at h2
    exact cnt_op_ra h2
  rw [if_neg c7] at h2
  by_cases c8 : op = 8
  · rw [if_pos c8] at h2
    exact loop_op_ra h2
  rw [if_neg c8] at h2
  by_cases c9 : op = 9
  · rw [if_pos c9] at h2
    exact jmp_op_ra h2
  rw [if_neg c9] at h2
  by_cases c10 : op = 10
  · rw [if_pos c10] at h2
    exact jmpc_op_ra h2
  rw [if_neg c10] at h2
  by_cases c11 : op = 11
  · exact absurd c11 hop
  rw [if_neg c11] at h2
  by_cases c12 : op = 12
  · rw [if_pos c12] at h2
    exact ret_op_ra h2
  rw [if_neg c12] at h2
  by_cases c13 : op = 13
  · rw [if_pos c13] at h2
    exact inc_op_ra h2
  rw [if_neg c13] at h2
  by_cases c14 : op = 14
  · rw [if_pos c14] at h2
    exact dec_op_ra h2
  rw [if_neg c14] at h2
  by_cases c15 : op = 15
  · rw [if_pos c15] at h2
    exact stck_op_ra h2
  rw [if_neg c15] at h2
  exact Except.noConfusion h2

/-- `[(JMPR, 3), (LIMM, R_2, 9), (JMP, 99), (RET,)]`: call the routine at
index 3, which returns immediately; the instruction after the call writes 9
into `R_2`, then the program jumps off the end. -/
def progC6 : List (List Val) :=
  [[some 11, some 3], [some 2, some 4, some 9], [some 9, some 99], [some 12]]

/-- Claim C6 (confirmed): the loop increments the PC before dispatching, so
`JMPR` at index `pc` saves `pc + 1` into the hidden return-address register
while jumping to its target; no handler other than `jmpr_op` ever writes
that register; and a later `RET` sets the PC to the saved `pc + 1`.
Concretely, `progC6` runs its post-call instruction (R_2 becomes 9). -/
theorem C6_jmpr_ret (m : Machine) (pc : Int) (t : Val)
    (hpc : dLookup m.regs (some 0) = some (some pc))
    (hfetch : fetch m.program pc = Except.ok [some 11, t]) :
    loopStep m = Except.ok (some
      { m with
        ra := some (pc + 1),
        regs := dSet (dSet m.regs (some 0) (some (pc + 1))) (some 0) t }) ∧
    (∀ (op : Int) (rest : List Val) (mm mm2 : Machine), op ≠ 11 →
       execOp (some op) rest mm = Except.ok mm2 → mm2.ra = mm.ra) ∧
    (∀ (mm : Machine) (pc2 : Int), dLookup mm.regs (some 0) = some (some pc2) →
       fetch mm.program pc2 = Except.ok [some 12] → mm.ra = some (pc + 1) →
       loopStep mm = Except.ok (some
         { mm with
           regs := dSet (dSet mm.regs (some 0) (some (pc2 + 1)))
                     (some 0) (some (pc + 1)) })) ∧
    runKind 10 progC6 = some RunResult.halt0 ∧
    runReg 10 progC6 4 = some (some 9) := by
  refine ⟨?_, fun op rest mm mm2 hne hh => execOp_ra op rest mm mm2 hne hh,
    ?_, by decide, by decide⟩
  · simp only [loopStep, hpc, hfetch, execOp]
    simp [jmpr_op, tupGet,
      dGet_eq_ok _ _ _ (dLookup_dSet_self m.regs (some 0) (some (pc + 1)))]
  · intro mm pc2 hpc2 hf2 hra
    simp only [loopStep, hpc2, hf2, execOp]
    simp [ret_op, hra]

theorem C6_witness :
    loopStep (initMachine progC6) = Except.ok (some
      { initMachine progC6 with
        ra := some 1,
        regs := dSet (dSet (initMachine progC6).regs (some 0) (some 1))
                  (some 0) (some 3) }) :=
  (C6_jmpr_ret (initMachine progC6) 0 (some 3) rfl rfl).1

/-! ### Claim C7: LOOP decrement-and-branch -/

/-- `[(CNT, 3), (INC, R_2), (LOOP, 1)]`: a loop whose body increments
`R_2` once per iteration. -/
def progC7 : List (List Val) :=
  [[some 7, some 3], [some 13, some 4], [some 8, some 1]]

/-- Claim C7 (confirmed): `loop_op` decrements `regs[CNT]` and assigns
`regs[PC] = target` exactly when the decremented value is non-zero; with
`CNT = 3` the body of `progC7` executes exactly 3 times (final `R_2 = 3`)
and the loop falls through when the count reaches 0. -/
theorem C7_loop (m : Machine) (t : Val) (c : Int)
    (hc : dGet m.regs (some 1) = Except.ok (some c)) :
    loop_op m [t] = Except.ok (
      if c - 1 = 0 then { m with regs := dSet m.regs (some 1) (some (c - 1)) }
      else { m with regs := dSet (dSet m.regs (some 1) (some (c - 1)))
                     (some 0) t }) ∧
    runKind 20 progC7 = some RunResult.halt0 ∧
    runReg 20 progC7 4 = some (some 3) ∧
    runReg 20 progC7 1 = some (some 0) := by
  refine ⟨?_, by decide, by decide, by decide⟩
  by_cases hz : c - 1 = 0
  · simp [loop_op, hc, subV, tupGet, truthy, hz]
  · simp [loop_op, hc, subV, tupGet, truthy, hz]

/-- A machine with `CNT = 3`, about to execute `(LOOP, 1)`. -/
def mC7W : Machine :=
  { initMachine [] with regs := dSet initRegs (some 1) (some 3) }

theorem C7_witness :
    loop_op mC7W [some 1] = Except.ok
      { mC7W with
        regs := dSet (dSet mC7W.regs (some 1) (some 2)) (some 0) (some 1) } := by
  have h := (C7_loop mC7W (some 1) 3 rfl).1
  simpa using h

/-! ### Claim C8: unrecognized math/comparison modes -/

/-- Claim C8 (confirmed): a `MATH`, `MATHI` or `COMP` whose mode operand is
outside its recognized set hits the handler's `print(...); quit()` path:
the handler raises SystemExit, which the run loop does not catch, so the
run ends in a fault distinct from the normal halt. -/
theorem C8_unrecognized_mode (m : Machine) (dst s1 s2 r1 r2 mode : Val)
    (fuel : Nat) (pc : Int)
    (hm0 : mode ≠ some 0) (hm1 : mode ≠ some 1)
    (hm2 : mode ≠ some 2) (hm3 : mode ≠ some 3) :
    math_op m [dst, s1, s2, mode] = Except.error (PyExc.systemExit "math_op") ∧
    mathi_op m [dst, mode, s2] = Except.error (PyExc.systemExit "mathi_op") ∧
    (mode ≠ some 4 → mode ≠ some 5 →
      comp_op m [r1, r2, mode] = Except.error (PyExc.systemExit "comp_op")) ∧
    (dLookup m.regs (some 0) = some (some pc) →
      fetch m.program pc = Except.ok [some 3, dst, s1, s2, mode] →
      runFuel (fuel + 1) m
        = some (RunResult.fault (PyExc.systemExit "math_op"), m)) := by
  have hmath : ∀ mm : Machine,
      math_op mm [dst, s1, s2, mode]
        = Except.error (PyExc.systemExit "math_op") := by
    intro mm
    simp [math_op, tupGet, hm0, hm1, hm2, hm3]
  refine ⟨hmath m, ?_, ?_, ?_⟩
  · simp [mathi_op, tupGet, hm0, hm1, hm2, hm3]
  · intro hm4 hm5
    simp [comp_op, tupGet, hm0, hm1, hm2, hm3, hm4, hm5]
  · intro hpc hfetch
    have hstep : loopStep m = Except.error (PyExc.systemExit "math_op") := by
      simp only [loopStep, hpc, hfetch, execOp]
      simp [hmath]
    exact runFuel_fault fuel m _ hstep (by simp)

theorem C8_witness :
    runFuel 1 (initMachine [[some 3, some 2, some 2, some 2, some 9]])
      = some (RunResult.fault (PyExc.systemExit "math_op"),
              initMachine [[some 3, some 2, some 2, some 2, some 9]]) :=
  (C8_unrecognized_mode (initMachine [[some 3, some 2, some 2, some 2, some 9]])
    (some 2) (some 2) (some 2) (some 2) (some 2) (some 9) 0 0
    (by decide) (by decide) (by decide) (by decide)).2.2.2 rfl rfl

/-! ### Claim C9: unrecognized MEM/STCK modes are silent no-ops -/

/-- Claim C9 (confirmed): `mem_op` with a mode that is neither LOAD nor
STOR, and `stck_op` with a mode that is neither PUSH nor POP, fall through
their if/elif chains without an else: the machine is returned unchanged and
no error is raised — in contrast to `math_op`, which treats an
unrecognized mode as fatal. -/
theorem C9_unknown_mode_noop (m : Machine) (a b mode : Val)
    (h0 : mode ≠ some 0) (h1 : mode ≠ some 1) :
    mem_op m [a, b, mode] = Except.ok m ∧
    stck_op m [a, mode] = Except.ok m ∧
    (mode ≠ some 2 → mode ≠ some 3 →
      math_op m [a, b, b, mode] = Except.error (PyExc.systemExit "math_op")) := by
  refine ⟨?_, ?_, ?_⟩
  · simp [mem_op, tupGet, h0, h1]
  · simp [stck_op, tupGet, h0, h1]
  · intro h2 h3
    simp [math_op, tupGet, h0, h1, h2, h3]

theorem C9_witness :
    mem_op (initMachine []) [some 4, some 5, some 7] = Except.ok (initMachine []) ∧
    stck_op (initMachine []) [some 4, some 7] = Except.ok (initMachine []) :=
  ⟨(C9_unknown_mode_noop (initMachine []) (some 4) (some 5) (some 7)
      (by decide) (by decide)).1,
   (C9_unknown_mode_noop (initMachine []) (some 4) (some 5) (some 7)
      (by decide) (by decide)).2.1⟩

/-! ### Claim C10: jump to the no-target sentinel None -/

/-- `[(JMP, None)]`. -/
def progC10 : List (List Val) := [[some 9, none]]

/-- Claim C10 (confirmed): jump handlers can assign the `None` sentinel to
`regs[PC]`; the `while self.regs[PC] is not None` guard then exits before
the next fetch, so the run terminates normally (implicit `return None`),
with no further instruction executed and no fault — a second designed halt
mechanism besides an out-of-range PC. -/
theorem C10_none_pc_halts (fuel : Nat) (m : Machine)
    (hpc : dLookup m.regs (some 0) = some none) :
    loopStep m = Except.ok none ∧
    runFuel (fuel + 1) m = some (RunResult.haltNone, m) ∧
    jmp_op m [none] = Except.ok { m with regs := dSet m.regs (some 0) none } ∧
    (m.cond = 0 →
      jmpc_op m [none] = Except.ok { m with regs := dSet m.regs (some 0) none }) ∧
    runKind 5 progC10 = some RunResult.haltNone := by
  have hstep : loopStep m = Except.ok none := by
    simp only [loopStep, hpc]
  refine ⟨hstep, runFuel_haltNone fuel m hstep, ?_, ?_, by decide⟩
  · simp [jmp_op, tupGet]
  · intro h0
    simp [jmpc_op, h0, tupGet]

/-- A machine whose PC holds the `None` sentinel. -/
def mC10W : Machine :=
  { initMachine [] with regs := dSet initRegs (some 0) none }

theorem C10_witness :
    loopStep mC10W = Except.ok none ∧
    runFuel 1 mC10W = some (RunResult.haltNone, mC10W) :=
  ⟨(C10_none_pc_halts 0 mC10W rfl).1, (C10_none_pc_halts 0 mC10W rfl).2.1⟩

end SADVM
